import Mathlib

/-!
Verification of the MITK slice-interpolation / paintbrush editing core.

The definitions below are a shallow embedding of
  * `src/Modules/Segmentation/Interactions/mitkPaintbrushTool.cpp`
  * `src/Modules/SegmentationUI/Qmitk/QmitkSlicesInterpolator.cpp`
together with, where the relevant implementation file is not part of the
source tree (only its callers are), definitions modelled from the
specification (each such definition is marked `Modelled from the spec:`).

Numeric conventions:
  * C++ `int` arithmetic is embedded as `Int` with `Int.tdiv` / `Int.tmod`
    (truncation toward zero, exactly C++ semantics).
  * Contour vertices produced by `mitk::PaintbrushTool::UpdateContour` live on
    a half-integer grid (the source shifts by `0.5` in `upperLeft` and in the
    even-size center correction).  We represent every vertex in DOUBLED
    coordinates: the stored pair `(a, b) : Int × Int` denotes the source point
    `(a/2, b/2)`.  All source arithmetic on these points (sign flips, `+1`
    offsets, `±0.5` shifts) is exact on this grid, so nothing is lost.
  * The source tests `sqrt(dx*dx + dy*dy) > fradius` in single-precision
    float, where `dx`, `dy` are integers minus a correction `0` or `0.5`, and
    `fradius = size/2`.  For `size ≥ 1` this comparison is equivalent to the
    exact integer comparison `(2*dx)² + (2*dy)² > size²`: equality of the two
    sides is impossible (for odd sizes both sides of the squared comparison
    are integers of different parity classes; for even sizes the left side is
    `(odd² + odd²)/4`, never an integer), and the minimal nonzero gap between
    `len` and `fradius` is at least `1/(4*(len+fradius)) > 0.01` for the
    magnitudes involved, far above single-precision rounding error.  The
    embedding therefore uses the exact integer comparison.
-/

namespace MITK

/-! ## Paintbrush contour rasterizer (`mitk::PaintbrushTool::UpdateContour`) -/

/-- Source `mitk::PaintbrushTool::upperLeft`: shifts a point by `(-0.5, +0.5)`.
Here in doubled coordinates: the march point `(x, y)` (plain pixel indices)
becomes the stored vertex `(2*x - 1, 2*y + 1)`. -/
def upperLeft (p : Int × Int) : Int × Int :=
  (2 * p.1 - 1, 2 * p.2 + 1)

/-- Whether the march pixel `(x, y)` lies strictly outside the brush disc:
the source computes `len = sqrt((x-cc)² + (y-cc)²)` and tests `len > fradius`
with `fradius = size/2` and center correction `cc` (`0.5` for even sizes, `0`
for odd sizes).  `c` is the doubled correction (`1` for even, `0` for odd);
for `size ≥ 1` the float comparison is exact and equals this integer test
(see the header comment). -/
def pixelOutside (size c x y : Int) : Bool :=
  (2 * x - c) * (2 * x - c) + (2 * y - c) * (2 * y - c) > size * size

/-- Inner loop `while (curPointIsInside) { curPoint[0]++; ... }` of
`UpdateContour`: starting from column `x` on row `y`, step right until the
first pixel outside the disc and return its column.  `fuel` bounds the
recursion; every use supplies enough fuel for the loop to reach its exit
condition (the squared distance grows strictly with `x`). -/
def marchRight (size c : Int) : Nat → Int → Int → Int
  | 0, x, _ => x
  | fuel + 1, x, y =>
    let x' := x + 1
    if pixelOutside size c x' y then x' else marchRight size c fuel x' y

/-- Inner loop `while (!curPointIsInside) { curPoint[1]--; ... }` of
`UpdateContour`: starting from row `y` in column `x` (a column just outside
the disc), step down; when a pixel inside the disc is found, record its
`upperLeft` vertex and stop (the `curPointIsInside = true` exit).  If the row
index reaches `0` first, stop without a vertex (the `break`).  Returns the
final row and the optionally recorded vertex. -/
def marchDown (size c : Int) : Nat → Int → Int → Int × Option (Int × Int)
  | 0, _, y => (y, none)
  | fuel + 1, x, y =>
    let y' := y - 1
    if !pixelOutside size c x y' then (y', some (upperLeft (x, y')))
    else if y' ≤ 0 then (y', none)
    else marchDown size c fuel x y'

/-- Outer loop `while (curPoint[1] > 0)` of `UpdateContour`: alternately march
right to the first outside pixel (recording its `upperLeft` vertex) and march
down to the next inside pixel (recording its `upperLeft` vertex), until the
row index reaches `0`.  The loop is re-entered only after `marchDown` found an
inside pixel on a row `> 0`, exactly as in the source, where
`curPointIsInside` is `true` again whenever the outer condition is tested
positively. -/
def quarterArcLoop (size c : Int) (innerFuel : Nat) : Nat → Int → Int → List (Int × Int)
  | 0, _, _ => []
  | fuel + 1, x, y =>
    if y ≤ 0 then []
    else
      let x' := marchRight size c innerFuel x y
      let step := marchDown size c innerFuel x' y
      match step.2 with
      | some v => upperLeft (x', y) :: v :: quarterArcLoop size c innerFuel fuel x' step.1
      | none => [upperLeft (x', y)]

/-- Fuel bound used for all the march loops: the right march stops after at
most `radius + 2` steps and the down march after at most `radius + 1` steps,
and the outer loop strictly decreases the row, so `size + 4` steps (in
absolute value) are always sufficient. -/
def contourFuel (size : Int) : Nat :=
  size.toNat + 4

/-- First phase of `UpdateContour`: the upper-right quarter arc
`quarterCycleUpperRight`, starting with the vertex for the topmost pixel
`(0, radius)` and then running the march loops.  `radius = m_Size / 2` with
C++ truncating division; the doubled center correction is `1` for even sizes
(`m_Size % 2 == 0`) and `0` for odd sizes. -/
def quarterCycleUpperRight (size : Int) : List (Int × Int) :=
  let radius := Int.tdiv size 2
  let c : Int := if Int.tmod size 2 = 0 then 1 else 0
  upperLeft (0, radius) :: quarterArcLoop size c (contourFuel size) (contourFuel size) 0 radius

/-- Mirror of one upper-right vertex into the lower-right quadrant
(doubled coordinates; the even-size `+1` offset becomes `+2`). -/
def mirrorLowerRight (evenSize : Bool) (p : Int × Int) : Int × Int :=
  if evenSize then (p.1, -p.2 + 2) else (p.1, -p.2)

/-- Mirror of one upper-right vertex into the lower-left quadrant. -/
def mirrorLowerLeft (evenSize : Bool) (p : Int × Int) : Int × Int :=
  if evenSize then (-p.1 + 2, -p.2 + 2) else (-p.1, -p.2)

/-- Mirror of one upper-right vertex into the upper-left quadrant. -/
def mirrorUpperLeft (evenSize : Bool) (p : Int × Int) : Int × Int :=
  if evenSize then (-p.1 + 2, p.2) else (-p.1, p.2)

/-- Embedding of `mitk::PaintbrushTool::UpdateContour`: build the quarter arc,
mirror it into the other three quadrants, and concatenate
upper-right ++ reverse lower-right ++ lower-left ++ reverse upper-left,
exactly as the four `AddVertex` loops of the source do.  The result is the
vertex list of `m_MasterContour` in doubled coordinates. -/
def updateContour (size : Int) : List (Int × Int) :=
  let ur := quarterCycleUpperRight size
  let evenSize := Int.tmod size 2 = 0
  let lr := ur.map (mirrorLowerRight evenSize)
  let ll := ur.map (mirrorLowerLeft evenSize)
  let ul := ur.map (mirrorUpperLeft evenSize)
  ur ++ lr.reverse ++ ll ++ ul.reverse

/-- Rotation by 180° about the brush center, in doubled coordinates: for odd
sizes the center is the origin; for even sizes it is the centering-corrected
point `(0.5, 0.5)` (doubled: `(1, 1)`), so the rotation is `p ↦ (2, 2) - p`. -/
def rotate180 (evenSize : Bool) (p : Int × Int) : Int × Int :=
  if evenSize then (2 - p.1, 2 - p.2) else (-p.1, -p.2)

/-- Whether the vertex set of the contour for `size` is invariant under the
180° rotation about its (parity-corrected) center. -/
def contourRotationSymmetric (size : Int) : Bool :=
  let cont := updateContour size
  let evenSize := Int.tmod size 2 = 0
  cont.all (fun p => cont.contains (rotate180 evenSize p))

/-! ## Paintbrush tool state and `MouseMoved` (`mitkPaintbrushTool.cpp`) -/

/-- Class-static brush size `int mitk::PaintbrushTool::m_Size = 1;`
(`mitkPaintbrushTool.cpp` line 23): a single value shared by every
`PaintbrushTool` instance; the class has no per-instance size field. -/
structure PaintbrushGlobals where
  size : Int
  deriving DecidableEq

/-- Embedding of `mitk::PaintbrushTool::SetSize` (lines 88-91): the value is
stored, without any validation, into the class-static `m_Size`.  The function
reads no per-instance state, so a call made through any one tool instance
changes the size seen by every instance. -/
def setSize (_g : PaintbrushGlobals) (value : Int) : PaintbrushGlobals :=
  { size := value }

/-- One fill operation recorded against the painting slice buffer.
`ContourModelUtils::FillContourInSlice2` is an external collaborator (its
implementation is not under `src/`), so a fill is recorded by the data that
determines it: the translated contour vertices for a brush fill, and the two
stroke end points plus the radius for the gap rectangle (the source derives
the rectangle's corners from exactly these data). -/
inductive FillOp
  | brush (vertices : List (Int × Int))
  | gap (fromPos toPos : ℚ × ℚ × ℚ) (radius : ℚ)
  deriving DecidableEq

/-- Mutable state of a `PaintbrushTool` consulted by `MouseMoved`.
`lastPos` embeds the function-local `static Point3D lastPos` of `MouseMoved`
(which, being function-static, is shared across instances just like
`m_Size`; the theorems below do not depend on that distinction). -/
structure PaintbrushToolState where
  /-- the `static Point3D lastPos` used by the skip check (stores the rounded
  x/y coordinates and the raw third coordinate). -/
  lastPos : ℚ × ℚ × ℚ
  /-- member `m_LastPosition`, the previous stroke position. -/
  lastPosition : ℚ × ℚ × ℚ
  /-- member `m_LastContourSize`, the size `m_MasterContour` was last built
  for. -/
  lastContourSize : Int
  /-- member `m_MasterContour`, in doubled coordinates. -/
  masterContour : List (Int × Int)
  /-- the painting slice buffer `m_PaintingSlice`, as the sequence of fill
  operations applied to it. -/
  fills : List FillOp
  /-- the feedback contour last handed to `UpdateCurrentFeedbackContour`. -/
  feedback : Option (List (Int × Int))
  /-- visibility of `m_PaintingNode`. -/
  nodeVisible : Bool
  deriving DecidableEq

/-- Embedding of `std::round`: round to nearest, halves away from zero. -/
def cppRound (q : ℚ) : Int :=
  if 0 ≤ q then ⌊q + 1 / 2⌋ else -⌊-q + 1 / 2⌋

/-- The contour maintenance step at the top of `MouseMoved` (lines 327-331):
rebuild `m_MasterContour` via `UpdateContour` whenever the class-static
`m_Size` differs from `m_LastContourSize`, and remember the size built for. -/
def refreshContour (g : PaintbrushGlobals) (s : PaintbrushToolState) : PaintbrushToolState :=
  if s.lastContourSize ≠ g.size then
    { s with masterContour := updateContour g.size, lastContourSize := g.size }
  else s

/-- The part of `MouseMoved` after the skip check decided to proceed
(lines 354-450): store the new static `lastPos`, translate the master contour
to the rounded position `(ix, iy)`, fill it into the painting slice when the
button is pressed — plus the gap rectangle when the distance to
`m_LastPosition` exceeds the radius (the source compares `dist > radius` with
`dist ≥ 0`, embedded exactly as `radius < 0 ∨ dist² > radius²`) — hide the
painting node when the button is not pressed, then update `m_LastPosition`
and publish the feedback contour. -/
def mouseMovedBody (g : PaintbrushGlobals) (s0 : PaintbrushToolState)
    (ix iy : Int) (p : ℚ × ℚ × ℚ) (leftMouseButtonPressed : Bool) :
    PaintbrushToolState :=
  let contour := s0.masterContour.map (fun q => (q.1 + 2 * ix, q.2 + 2 * iy))
  let s1 := { s0 with lastPos := p }
  let s2 :=
    if leftMouseButtonPressed then
      let radius : ℚ := (g.size : ℚ) / 2
      let d2 := (p.1 - s0.lastPosition.1) * (p.1 - s0.lastPosition.1) +
        (p.2.1 - s0.lastPosition.2.1) * (p.2.1 - s0.lastPosition.2.1) +
        (p.2.2 - s0.lastPosition.2.2) * (p.2.2 - s0.lastPosition.2.2)
      let fills1 := s1.fills ++ [FillOp.brush contour]
      let fills2 :=
        if radius < 0 ∨ d2 > radius * radius then
          fills1 ++ [FillOp.gap s0.lastPosition p radius]
        else fills1
      { s1 with fills := fills2 }
    else { s1 with nodeVisible := false }
  { s2 with lastPosition := p, feedback := some contour }

/-- Embedding of `mitk::PaintbrushTool::MouseMoved(event, leftMouseButtonPressed)`
(lines 321-451).  `eps` is the tolerance `mitk::eps` (an external positive
constant; the theorems below hold for every `0 ≤ eps`).  Steps, in source
order: rebuild `m_MasterContour` if `m_LastContourSize != m_Size`
(`refreshContour`); round the x/y index coordinates with `std::round`; if no
coordinate differs from the static `lastPos` by more than `eps` and the
button is not pressed, return without further effect; otherwise run
`mouseMovedBody`.  Returns the new state and whether the call proceeded past
the skip check.  Geometry collaborators (`WorldToIndex`,
`BackProjectContourFrom2DSlice`) are external; positions are taken directly
in index coordinates and the feedback contour is recorded in slice
coordinates. -/
def mouseMoved (eps : ℚ) (g : PaintbrushGlobals) (s : PaintbrushToolState)
    (pos : ℚ × ℚ × ℚ) (leftMouseButtonPressed : Bool) :
    PaintbrushToolState × Bool :=
  let s0 := refreshContour g s
  let ix : Int := cppRound pos.1
  let iy : Int := cppRound pos.2.1
  let p : ℚ × ℚ × ℚ := ((ix : ℚ), (iy : ℚ), pos.2.2)
  if |p.1 - s0.lastPos.1| > eps ∨ |p.2.1 - s0.lastPos.2.1| > eps ∨
      |p.2.2 - s0.lastPos.2.2| > eps ∨ leftMouseButtonPressed = true then
    (mouseMovedBody g s0 ix iy p leftMouseButtonPressed, true)
  else (s0, false)

/-- Feedback contour color, set by `OnInvertLogic` via
`SetFeedbackContourColor(1.0, 0.0, 0.0)` (red) or
`SetFeedbackContourColorDefault`. -/
inductive FeedbackColor
  | red
  | default
  deriving DecidableEq

/-- The state touched by `mitk::PaintbrushTool::OnInvertLogic`. -/
structure InvertState where
  paintingPixelValue : Int
  feedbackColor : FeedbackColor
  deriving DecidableEq

/-- Embedding of `mitk::PaintbrushTool::OnInvertLogic` (lines 489-503):
`m_PaintingPixelValue == 1` becomes `0` (feedback red),
`m_PaintingPixelValue == 0` becomes `1` (feedback default), and any other
value falls through both branches unchanged. -/
def onInvertLogic (s : InvertState) : InvertState :=
  if s.paintingPixelValue = 1 then { paintingPixelValue := 0, feedbackColor := .red }
  else if s.paintingPixelValue = 0 then { paintingPixelValue := 1, feedbackColor := .default }
  else s

/-! ## Accept-all interpolation orchestration (`QmitkSlicesInterpolator.cpp`) -/

/-- A voxel coordinate of the segmentation volume. -/
abbrev Voxel := ℕ × ℕ × ℕ

/-- The worker count of `AcceptAllInterpolations` (line 779):
`std::min(std::thread::hardware_concurrency(), numSlices)`. -/
def numWorkers (parallelism numSlices : ℕ) : ℕ :=
  min parallelism numSlices

/-- The slice indices assigned to worker `t` (lines 780-783): the source
pushes every index `i` onto bucket `i % numThreads`, so bucket `t` holds, in
increasing order, exactly the `i < numSlices` with `i % numThreads = t`. -/
def sliceIndicesFor (numSlices numThreads t : ℕ) : List ℕ :=
  (List.range numSlices).filter (fun i => i % numThreads == t)

/-- Pointwise update of a label volume at one voxel. -/
def updateVol (v : Voxel → Int) (x : Voxel) (val : Int) : Voxel → Int :=
  fun y => if y = x then val else v y

/-- Modelled from the spec: `mitk::DiffImageApplier::ExecuteOperation` for the
"do" `ApplyDiffImageOperation` (scale factor `+1`) is not under `src/` (only
its caller at lines 843-857 is).  Per §4.5 of the spec, executing the "do"
operation writes every diff entry into the corresponding voxel of the label
volume (scale `+1` = overwrite with the diff value), and the merge retains
the previous value of every touched voxel so that the scale `-1` execution
can restore it.  `applyDiff` returns the updated volume together with the
retained pre-image (the touched voxels paired with their prior values,
recorded before any write). -/
def applyDiff (v : Voxel → Int) (diff : List (Voxel × Int)) :
    (Voxel → Int) × List (Voxel × Int) :=
  (diff.foldl (fun acc e => updateVol acc e.1 e.2) v,
   diff.map (fun e => (e.1, v e.1)))

/-- Modelled from the spec: executing the "undo" operation (scale factor
`-1`, set via `undoOp->SetFactor(-1.0)`) restores the retained previous value
of every voxel touched by the diff (spec §4.5: "scale −1 = restore the prior
value"). -/
def reverseDiff (v : Voxel → Int) (preImage : List (Voxel × Int)) : Voxel → Int :=
  preImage.foldl (fun acc e => updateVol acc e.1 e.2) v

/-- The grouped do/undo record that `AcceptAllInterpolations` pushes onto the
global undo stack (lines 842-854): one `OperationEvent` holding the "do"
operation (factor `+1`), the "undo" operation (factor `-1`), the retained
pre-image that makes the undo executable, and the changed-slice count that
appears in the record's comment string. -/
structure AcceptUndoRecord where
  diff : List (Voxel × Int)
  doFactor : Int
  undoFactor : Int
  preImage : List (Voxel × Int)
  changedCount : ℕ
  timeStep : ℕ
  deriving DecidableEq

/-- The state read and written by `AcceptAllInterpolations`: the label
volume, the global undo stack with its monotonically increasing group/object
event ids, and whether `m_FeedbackNode` holds data. -/
structure AcceptAllState where
  volume : Voxel → Int
  undoStack : List AcceptUndoRecord
  currGroupEventId : ℕ
  currObjectEventId : ℕ
  feedbackData : Bool

/-- The inputs of one `AcceptAllInterpolations` pass.  `interp i` is the
result of `m_Interpolator->Interpolate` for slice `i`: `none` when the
interpolation returned no image (nothing to write for this slice), and
`some writes` for a non-null interpolation, where `writes` lists the voxel
values the reslice-and-overwrite step writes into the diff image for this
slice. -/
structure AcceptAllInput where
  dim4 : Bool
  validTimePoint : Bool
  timeStep4D : ℕ
  numSlices : ℕ
  parallelism : ℕ
  interp : ℕ → Option (List (Voxel × Int))

/-- The value of the atomic counter `totalChangedSlices` after all workers
have joined: one increment per slice whose interpolation was non-null. -/
def totalChangedSlices (inp : AcceptAllInput) : ℕ :=
  ((List.range inp.numSlices).filter (fun i => (inp.interp i).isSome)).length

/-- The content of the diff image after all workers have joined: the
concatenated per-slice writes.  At runtime the workers interleave their
writes, but distinct workers own disjoint slice regions (see the partition
theorem below), so the aggregate is order-independent; the embedding fixes
increasing slice order. -/
def diffWrites (inp : AcceptAllInput) : List (Voxel × Int) :=
  ((List.range inp.numSlices).map (fun i => (inp.interp i).getD [])).flatten

/-- Embedding of `QmitkSlicesInterpolator::AcceptAllInterpolations`
(lines 710-864), at the granularity of its effect on `AcceptAllState`:
nothing happens when `m_Segmentation` is null; when the segmentation is 4-D
and the selected time point is invalid, the pass warns and returns before
creating the diff image (the volume, the undo stack and the event ids are
untouched, and `m_FeedbackNode` keeps its data); otherwise the workers fill
the diff image, and if at least one slice changed, one do/undo operation
event is pushed (incrementing both event ids once) and the "do" operation is
executed on the volume; finally `m_FeedbackNode` is cleared.  Note the
invalid-time-point check exists only inside the `4 == GetDimension()` branch;
a 3-D segmentation is processed with `timeStep = 0` regardless of the
selected time point. -/
def acceptAll (hasSegmentation : Bool) (s : AcceptAllState) (inp : AcceptAllInput) :
    AcceptAllState :=
  if hasSegmentation then
    if inp.dim4 && !inp.validTimePoint then s
    else
      let timeStep := if inp.dim4 then inp.timeStep4D else 0
      let changed := totalChangedSlices inp
      let s' :=
        if 0 < changed then
          let diff := diffWrites inp
          let applied := applyDiff s.volume diff
          let record : AcceptUndoRecord :=
            { diff := diff
              doFactor := 1
              undoFactor := -1
              preImage := applied.2
              changedCount := changed
              timeStep := timeStep }
          { s with
            volume := applied.1
            undoStack := record :: s.undoStack
            currGroupEventId := s.currGroupEventId + 1
            currObjectEventId := s.currObjectEventId + 1 }
        else s
      { s' with feedbackData := false }
  else s

/-- The record `acceptAll` pushes when at least one slice changed. -/
def acceptUndoRecordOf (s : AcceptAllState) (inp : AcceptAllInput) : AcceptUndoRecord :=
  { diff := diffWrites inp
    doFactor := 1
    undoFactor := -1
    preImage := (applyDiff s.volume (diffWrites inp)).2
    changedCount := totalChangedSlices inp
    timeStep := if inp.dim4 then inp.timeStep4D else 0 }

/-- Outcome of one `QmitkSlicesInterpolator::Interpolate` call. -/
structure InterpolateOutcome where
  warned : Bool
  feedbackSet : Bool
  lastSNCUpdated : Bool
  deriving DecidableEq

/-- Embedding of `QmitkSlicesInterpolator::Interpolate` (lines 583-617),
at the granularity of its control flow: nothing happens when the tool
manager, working node or segmentation image is missing; when the time point
is not within the segmentation's time bounds the function warns and returns
before interpolating (no feedback data is set, `m_LastSNC` and
`m_LastSliceIndex` keep their values); otherwise the interpolated slice is
computed, set as feedback data, and `m_LastSNC` is updated. -/
def interpolateStep (hasToolManager hasWorkingNode hasSegmentationImage validTimePoint : Bool) :
    InterpolateOutcome :=
  if hasToolManager && hasWorkingNode && hasSegmentationImage then
    if !validTimePoint then ⟨true, false, false⟩
    else ⟨false, true, true⟩
  else ⟨false, false, false⟩

/-! ## Serialization of 3-D interpolation passes (`m_Watcher` / `m_Future`) -/

/-- The scheduling state of the widget's deferred 3-D interpolation work:
the single `m_Watcher`/`m_Future` pair and the single
`m_PlaneWatcher`/`m_PlaneFuture` pair each track at most one job, identified
here by a serial number.  `started`, `completed` and `cancelled` record the
history of jobs for the invariants below; the source has no cancellation
path at all, so no step ever adds to `cancelled`. -/
structure WatcherState where
  enabled3D : Bool
  running : Option ℕ
  planeRunning : Option ℕ
  started : List ℕ
  completed : List ℕ
  cancelled : List ℕ
  nextId : ℕ
  deriving DecidableEq

/-- Qt `m_Watcher.waitForFinished()`: blocks until the tracked job (if any)
has run to completion.  The job completes; it is not cancelled. -/
def watcherWaitForFinished (s : WatcherState) : WatcherState :=
  match s.running with
  | some j => { s with running := none, completed := j :: s.completed }
  | none => s

/-- Qt `m_PlaneWatcher.waitForFinished()`. -/
def planeWaitForFinished (s : WatcherState) : WatcherState :=
  match s.planeRunning with
  | some j => { s with planeRunning := none, completed := j :: s.completed }
  | none => s

/-- Starting a new `Run3DInterpolation` job:
`m_Future = QtConcurrent::run(...); m_Watcher.setFuture(m_Future);` — the
fresh job is recorded as started and the watcher now tracks it. -/
def startInterpolationJob (s : WatcherState) : WatcherState :=
  { s with
    running := some s.nextId
    started := s.nextId :: s.started
    nextId := s.nextId + 1 }

/-- Starting a new `RunPlaneSuggestion` job on the plane watcher. -/
def startPlaneJob (s : WatcherState) : WatcherState :=
  { s with
    planeRunning := some s.nextId
    started := s.nextId :: s.started
    nextId := s.nextId + 1 }

/-- Embedding of `QmitkSlicesInterpolator::OnSurfaceInterpolationInfoChanged`
(lines 1302-1311): when 3-D interpolation is enabled, first wait for a still
running prior pass (`if (m_Watcher.isRunning()) m_Watcher.waitForFinished();`),
then start the new `Run3DInterpolation` job and point the watcher at it. -/
def onSurfaceInterpolationInfoChanged (s : WatcherState) : WatcherState :=
  if s.enabled3D then
    startInterpolationJob (if s.running.isSome then watcherWaitForFinished s else s)
  else s

/-- Embedding of `QmitkSlicesInterpolator::OnSuggestPlaneClicked`
(lines 980-986): same wait-then-start pattern on the plane watcher. -/
def onSuggestPlaneClicked (s : WatcherState) : WatcherState :=
  startPlaneJob (if s.planeRunning.isSome then planeWaitForFinished s else s)

/-- Embedding of `QmitkSlicesInterpolator::WaitForFutures` (lines 1417-1428):
wait for `m_Watcher`, then for `m_PlaneWatcher`. -/
def waitForFutures (s : WatcherState) : WatcherState :=
  planeWaitForFinished (watcherWaitForFinished s)

/-- The scheduling events of the widget relevant to pass serialization:
the two job-starting handlers, spontaneous resolution of a running future,
and the explicit barrier. -/
inductive WatcherEvent
  | surfaceInfoChanged
  | interpolationJobResolved
  | planeJobResolved
  | waitAll
  deriving DecidableEq

/-- One scheduling step. -/
def watcherStep (s : WatcherState) : WatcherEvent → WatcherState
  | .surfaceInfoChanged => onSurfaceInterpolationInfoChanged s
  | .interpolationJobResolved => watcherWaitForFinished s
  | .planeJobResolved => planeWaitForFinished s
  | .waitAll => waitForFutures s

/-- A whole scheduling history. -/
def watcherRun (s : WatcherState) (events : List WatcherEvent) : WatcherState :=
  events.foldl watcherStep s

/-- The widget's initial scheduling state: no job running, empty history. -/
def watcherInit (enabled : Bool) : WatcherState :=
  { enabled3D := enabled, running := none, planeRunning := none,
    started := [], completed := [], cancelled := [], nextId := 0 }

/-- The serialization invariant of the deferred-job scheduling: no job is
ever cancelled, and every job ever started is accounted for — it is either
still running (in one of the two watchers) or has run to completion. -/
def watcherInvariant (s : WatcherState) : Prop :=
  s.cancelled = [] ∧
    (s.started : Multiset ℕ) =
      (s.running.toList : Multiset ℕ) + (s.planeRunning.toList : Multiset ℕ) +
        (s.completed : Multiset ℕ)

/-- A scheduling state with a 3-D interpolation pass (job `5`) still running
when a new pass is requested. -/
def sampleWatcherState : WatcherState :=
  { enabled3D := true, running := some 5, planeRunning := none,
    started := [5], completed := [], cancelled := [], nextId := 6 }

/-- A freshly activated paintbrush tool instance: origin positions, no
contour built yet, empty painting buffer. -/
def sampleToolState : PaintbrushToolState :=
  { lastPos := (0, 0, 0), lastPosition := (0, 0, 0), lastContourSize := 0,
    masterContour := [], fills := [], feedback := none, nodeVisible := false }

/-- An all-zero label volume with an empty undo history and feedback data
present. -/
def zeroAcceptState : AcceptAllState :=
  { volume := fun _ => 0, undoStack := [], currGroupEventId := 0,
    currObjectEventId := 0, feedbackData := true }

/-- An accept-all scenario on a 3-D segmentation (`dim4 = false`) whose
selected time point is NOT within the volume's time bounds, and whose single
slice interpolates to a write of label `1` at voxel `(0, 0, 0)`. -/
def invalidTime3DInput : AcceptAllInput :=
  { dim4 := false, validTimePoint := false, timeStep4D := 0, numSlices := 1,
    parallelism := 2, interp := fun _ => some [((0, 0, 0), 1)] }

/-- The same scenario on a 4-D segmentation, where the early time-point check
does fire. -/
def invalidTime4DInput : AcceptAllInput :=
  { dim4 := true, validTimePoint := false, timeStep4D := 0, numSlices := 1,
    parallelism := 2, interp := fun _ => some [((0, 0, 0), 1)] }

/-! ## Basic facts about the contour marching loops -/

/-- The outer march loop body never runs when the starting row is already
`≤ 0` (the source condition `while (curPoint[1] > 0)` fails immediately). -/
theorem quarterArcLoop_of_nonpos (size c : Int) (innerFuel fuel : Nat) (x y : Int)
    (h : y ≤ 0) : quarterArcLoop size c innerFuel fuel x y = [] := by
  cases fuel with
  | zero => rfl
  | succ n => simp [quarterArcLoop, h]

/-- C++ `size / 2` is nonpositive for nonpositive `size` (truncating
division). -/
theorem tdiv_two_nonpos_of_nonpos (size : Int) (h : size ≤ 0) : Int.tdiv size 2 ≤ 0 := by
  match size with
  | Int.ofNat 0 => decide
  | Int.ofNat (n + 1) =>
    rw [Int.ofNat_eq_coe] at h
    exact absurd h (by omega)
  | Int.negSucc n =>
    have hd : Int.tdiv (Int.negSucc n) 2 = -Int.ofNat ((n + 1) / 2) := rfl
    rw [hd, Int.ofNat_eq_coe]
    omega

/-- For nonpositive sizes the quarter arc consists of the initial vertex
only. -/
theorem quarterCycleUpperRight_of_nonpos (size : Int) (h : size ≤ 0) :
    quarterCycleUpperRight size = [upperLeft (0, Int.tdiv size 2)] := by
  simp only [quarterCycleUpperRight]
  rw [quarterArcLoop_of_nonpos _ _ _ _ _ _ (tdiv_two_nonpos_of_nonpos size h)]

/-- C6: for every brush size in `{1, 2, 3, 4, 5, 10, 11}`, `UpdateContour`
produces a nonempty closed vertex cycle whose vertex set is invariant under
the 180° rotation about the brush center (odd sizes) resp. about the
centering-corrected center shifted by `(+0.5, +0.5)` (even sizes). -/
theorem contour_rotation_symmetric_for_claimed_sizes :
    (([1, 2, 3, 4, 5, 10, 11] : List Int).all fun s =>
      contourRotationSymmetric s && !(updateContour s).isEmpty) = true := by
  decide

/-- C5 counterexample: brush size `0` is NOT rejected at contour build time:
`SetSize` stores `0` unchanged into the class-static size, and
`UpdateContour` still produces a (degenerate) brush contour with 4
vertices rather than refusing to produce one. -/
theorem brush_size_zero_not_rejected :
    setSize ⟨1⟩ 0 = ⟨0⟩ ∧ updateContour 0 ≠ [] ∧ (updateContour 0).length = 4 := by
  refine ⟨rfl, ?_, ?_⟩ <;> decide

/-- C5 (amended): requested brush sizes `≤ 0` are not rejected anywhere:
`SetSize` stores the value without validation, and `UpdateContour` still
produces a degenerate closed contour of exactly 4 vertices (the march loop
never runs because the starting row `size / 2` is already `≤ 0`). -/
theorem brush_size_nonpos_not_rejected (g : PaintbrushGlobals) (size : Int)
    (h : size ≤ 0) :
    setSize g size = ⟨size⟩ ∧ (updateContour size).length = 4 := by
  refine ⟨rfl, ?_⟩
  simp only [updateContour]
  rw [quarterCycleUpperRight_of_nonpos size h]
  simp

/-- Witness for the amended C5 at brush size `0`. -/
theorem brush_size_nonpos_not_rejected_witness :
    (0 : Int) ≤ 0 ∧ setSize ⟨1⟩ 0 = ⟨0⟩ ∧ (updateContour 0).length = 4 :=
  ⟨by decide, brush_size_nonpos_not_rejected ⟨1⟩ 0 (by decide)⟩

/-- C10: `OnInvertLogic` toggles the painting pixel value only between `0`
and `1`: value `1` becomes `0` (switching the feedback contour to red),
value `0` becomes `1` (restoring the default feedback color), and every
other painting value falls through both branches and leaves the state
unchanged. -/
theorem invertLogic_toggles_only_zero_one (s : InvertState) :
    (s.paintingPixelValue = 1 → onInvertLogic s = ⟨0, .red⟩) ∧
    (s.paintingPixelValue = 0 → onInvertLogic s = ⟨1, .default⟩) ∧
    (s.paintingPixelValue ≠ 1 → s.paintingPixelValue ≠ 0 → onInvertLogic s = s) := by
  refine ⟨fun h => ?_, fun h => ?_, fun h1 h0 => ?_⟩
  · simp [onInvertLogic, h]
  · simp [onInvertLogic, h]
  · simp [onInvertLogic, h1, h0]

/-- Witness for C10 at painting values `1`, `0` and `7`. -/
theorem invertLogic_toggles_only_zero_one_witness :
    onInvertLogic ⟨1, .default⟩ = ⟨0, .red⟩ ∧
    onInvertLogic ⟨0, .red⟩ = ⟨1, .default⟩ ∧
    onInvertLogic ⟨7, .default⟩ = ⟨7, .default⟩ :=
  ⟨(invertLogic_toggles_only_zero_one ⟨1, .default⟩).1 rfl,
   (invertLogic_toggles_only_zero_one ⟨0, .red⟩).2.1 rfl,
   (invertLogic_toggles_only_zero_one ⟨7, .default⟩).2.2 (by decide) (by decide)⟩

/-! ## The round-robin slice partition -/

/-- Membership in a worker's bucket: exactly the in-range indices congruent
to the worker index. -/
theorem mem_sliceIndicesFor {numSlices numThreads t i : ℕ} :
    i ∈ sliceIndicesFor numSlices numThreads t ↔ i < numSlices ∧ i % numThreads = t := by
  simp [sliceIndicesFor]

/-- C2: the accept-all orchestrator uses exactly
`min(availableParallelism, numSlices)` workers and assigns the slice indices
round-robin: every index `i < numSlices` belongs to exactly one worker's
bucket (no omission, no duplication across workers), every bucket only holds
in-range indices without internal duplicates, and every one of the workers
receives at least one slice. -/
theorem acceptAll_partition_round_robin (parallelism numSlices : ℕ)
    (h : 0 < parallelism) :
    (∀ i, i < numSlices →
      ∃! t, t < numWorkers parallelism numSlices ∧
        i ∈ sliceIndicesFor numSlices (numWorkers parallelism numSlices) t) ∧
    (∀ t, t < numWorkers parallelism numSlices →
      (∀ i ∈ sliceIndicesFor numSlices (numWorkers parallelism numSlices) t, i < numSlices) ∧
      (sliceIndicesFor numSlices (numWorkers parallelism numSlices) t).Nodup ∧
      sliceIndicesFor numSlices (numWorkers parallelism numSlices) t ≠ []) := by
  constructor
  · intro i hi
    have hW : 0 < numWorkers parallelism numSlices := by
      simp only [numWorkers]
      omega
    refine ⟨i % numWorkers parallelism numSlices, ⟨Nat.mod_lt _ hW, ?_⟩, ?_⟩
    · exact mem_sliceIndicesFor.mpr ⟨hi, rfl⟩
    · rintro t ⟨_, hmem⟩
      exact ((mem_sliceIndicesFor.mp hmem).2).symm
  · intro t ht
    refine ⟨fun i hi => (mem_sliceIndicesFor.mp hi).1, ?_, ?_⟩
    · exact (List.nodup_range _).filter _
    · have htN : t < numSlices := by
        have := ht
        simp only [numWorkers] at this
        omega
      exact List.ne_nil_of_mem (mem_sliceIndicesFor.mpr ⟨htN, Nat.mod_eq_of_lt ht⟩)

/-- Witness for C2 with 4 hardware threads and 10 slices. -/
theorem acceptAll_partition_round_robin_witness :
    0 < 4 ∧
    ((∀ i, i < 10 → ∃! t, t < numWorkers 4 10 ∧ i ∈ sliceIndicesFor 10 (numWorkers 4 10) t) ∧
     (∀ t, t < numWorkers 4 10 →
       (∀ i ∈ sliceIndicesFor 10 (numWorkers 4 10) t, i < 10) ∧
       (sliceIndicesFor 10 (numWorkers 4 10) t).Nodup ∧
       sliceIndicesFor 10 (numWorkers 4 10) t ≠ [])) :=
  ⟨by decide, acceptAll_partition_round_robin 4 10 (by decide)⟩

/-! ## Accept-all: empty pass, round trip, time-point handling -/

/-- C4: an accept-all pass in which every per-slice interpolation came back
empty performs no merge: `totalChangedSlices` is `0`, so the label volume,
the undo stack and both event-id counters are exactly what they were (no
do/undo operation pair is created, nothing is pushed). -/
theorem acceptAll_empty_pass_no_merge (s : AcceptAllState) (inp : AcceptAllInput)
    (h : ∀ i, i < inp.numSlices → inp.interp i = none) :
    totalChangedSlices inp = 0 ∧
    (acceptAll true s inp).volume = s.volume ∧
    (acceptAll true s inp).undoStack = s.undoStack ∧
    (acceptAll true s inp).currGroupEventId = s.currGroupEventId ∧
    (acceptAll true s inp).currObjectEventId = s.currObjectEventId := by
  have hchanged : totalChangedSlices inp = 0 := by
    simp only [totalChangedSlices, List.length_eq_zero, List.filter_eq_nil_iff]
    intro a ha
    simp [h a (List.mem_range.mp ha)]
  refine ⟨hchanged, ?_⟩
  by_cases hd : (inp.dim4 && !inp.validTimePoint) = true
  · simp [acceptAll, hd]
  · simp [acceptAll, hd, hchanged]

/-- Witness for C4: a 3-slice pass whose interpolations all return empty. -/
theorem acceptAll_empty_pass_no_merge_witness :
    (∀ i, i < 3 → (none : Option (List (Voxel × Int))) = none) ∧
    (totalChangedSlices ⟨false, true, 0, 3, 2, fun _ => none⟩ = 0 ∧
     (acceptAll true zeroAcceptState ⟨false, true, 0, 3, 2, fun _ => none⟩).volume =
       zeroAcceptState.volume ∧
     (acceptAll true zeroAcceptState ⟨false, true, 0, 3, 2, fun _ => none⟩).undoStack =
       zeroAcceptState.undoStack ∧
     (acceptAll true zeroAcceptState ⟨false, true, 0, 3, 2, fun _ => none⟩).currGroupEventId =
       zeroAcceptState.currGroupEventId ∧
     (acceptAll true zeroAcceptState ⟨false, true, 0, 3, 2, fun _ => none⟩).currObjectEventId =
       zeroAcceptState.currObjectEventId) :=
  ⟨fun _ _ => rfl,
   acceptAll_empty_pass_no_merge zeroAcceptState ⟨false, true, 0, 3, 2, fun _ => none⟩
     (fun _ _ => rfl)⟩

/-- A fold of pointwise overwrites does not change voxels whose coordinate
is not touched by the write list. -/
theorem foldl_updateVol_not_mem (l : List (Voxel × Int)) (w : Voxel → Int) (x : Voxel)
    (h : x ∉ l.map Prod.fst) :
    l.foldl (fun acc e => updateVol acc e.1 e.2) w x = w x := by
  induction l generalizing w with
  | nil => rfl
  | cons e t ih =>
    simp only [List.map_cons, List.mem_cons] at h
    push_neg at h
    simp only [List.foldl_cons]
    rw [ih _ h.2]
    simp [updateVol, h.1]

/-- Replaying the retained pre-image of a write list restores the original
value on every touched voxel and is the identity elsewhere. -/
theorem foldl_updateVol_preimage (v : Voxel → Int) (l : List (Voxel × Int))
    (w : Voxel → Int) (x : Voxel) :
    (l.map fun e => (e.1, v e.1)).foldl (fun acc e => updateVol acc e.1 e.2) w x =
      if x ∈ l.map Prod.fst then v x else w x := by
  induction l generalizing w with
  | nil => simp
  | cons e t ih =>
    simp only [List.map_cons, List.foldl_cons]
    rw [ih]
    by_cases hxt : x ∈ t.map Prod.fst
    · simp [hxt]
    · by_cases hxe : x = e.1
      · simp [hxt, hxe, updateVol]
      · simp [hxt, hxe, updateVol]

/-- Reversing an applied diff with its retained pre-image restores every
voxel of the volume to its pre-apply value. -/
theorem reverseDiff_applyDiff (v : Voxel → Int) (diff : List (Voxel × Int)) (x : Voxel) :
    reverseDiff (applyDiff v diff).1 (applyDiff v diff).2 x = v x := by
  simp only [applyDiff, reverseDiff]
  rw [foldl_updateVol_preimage]
  by_cases hx : x ∈ diff.map Prod.fst
  · simp [hx]
  · simp [hx, foldl_updateVol_not_mem _ _ _ hx]

/-- C1: an accept-all pass with at least one changed slice pushes exactly one
grouped do/undo record and applies the full diff (all-or-nothing); executing
the "undo" side (`Reverse`, scale factor `-1`) on the merged volume then
restores every voxel — in particular every voxel touched by the diff — to
the value it had immediately before the apply. -/
theorem acceptAll_apply_then_reverse_restores (s : AcceptAllState) (inp : AcceptAllInput)
    (x : Voxel) (hv : inp.dim4 = false ∨ inp.validTimePoint = true)
    (hchanged : 0 < totalChangedSlices inp) :
    (acceptAll true s inp).undoStack = acceptUndoRecordOf s inp :: s.undoStack ∧
    reverseDiff (acceptAll true s inp).volume (acceptUndoRecordOf s inp).preImage x =
      s.volume x := by
  have hcond : (inp.dim4 && !inp.validTimePoint) = false := by
    rcases hv with h | h <;> simp [h]
  simp only [acceptAll, hcond, Bool.false_eq_true, if_false, if_true, hchanged, if_pos]
  exact ⟨rfl, reverseDiff_applyDiff s.volume (diffWrites inp) x⟩

/-- Witness for C1: a two-slice pass over an all-zero volume, checked at a
voxel the diff touches. -/
theorem acceptAll_apply_then_reverse_restores_witness :
    ((false : Bool) = false ∨ (true : Bool) = true) ∧
    0 < totalChangedSlices ⟨false, true, 0, 1, 2, fun _ => some [((0, 0, 0), 1)]⟩ ∧
    ((acceptAll true zeroAcceptState ⟨false, true, 0, 1, 2, fun _ => some [((0, 0, 0), 1)]⟩).undoStack =
      acceptUndoRecordOf zeroAcceptState ⟨false, true, 0, 1, 2, fun _ => some [((0, 0, 0), 1)]⟩ ::
        zeroAcceptState.undoStack ∧
     reverseDiff
       (acceptAll true zeroAcceptState ⟨false, true, 0, 1, 2, fun _ => some [((0, 0, 0), 1)]⟩).volume
       (acceptUndoRecordOf zeroAcceptState ⟨false, true, 0, 1, 2, fun _ => some [((0, 0, 0), 1)]⟩).preImage
       (0, 0, 0) = zeroAcceptState.volume (0, 0, 0)) :=
  ⟨Or.inl rfl, by decide,
   acceptAll_apply_then_reverse_restores zeroAcceptState
     ⟨false, true, 0, 1, 2, fun _ => some [((0, 0, 0), 1)]⟩ (0, 0, 0) (Or.inl rfl) (by decide)⟩

/-- C3 counterexample: an accept-all pass on a 3-D segmentation
(`GetDimension() != 4`) whose selected time point is invalid does NOT abort:
the source's time-bounds check sits inside the `4 == GetDimension()` branch,
so this pass interpolates, merges (voxel `(0,0,0)` changes to `1`) and pushes
an undo record despite the invalid time point. -/
theorem acceptAll_invalid_time_3d_not_aborted :
    invalidTime3DInput.validTimePoint = false ∧
    (acceptAll true zeroAcceptState invalidTime3DInput).volume (0, 0, 0) = 1 ∧
    (acceptAll true zeroAcceptState invalidTime3DInput).undoStack.length = 1 := by
  refine ⟨rfl, ?_, ?_⟩ <;> decide

/-- C3 (amended): an invalid time point aborts `Interpolate` always (warning,
no feedback set, no state update), and aborts `AcceptAllInterpolations` —
leaving the entire accept-all state untouched — when the segmentation volume
is 4-D; for a 3-D segmentation the accept-all path performs no time-point
check at all. -/
theorem invalid_time_point_aborts (s : AcceptAllState) (inp : AcceptAllInput)
    (htm hwn hsi : Bool)
    (hdim : inp.dim4 = true) (hvalid : inp.validTimePoint = false) :
    acceptAll true s inp = s ∧
    interpolateStep htm hwn hsi false = ⟨htm && hwn && hsi, false, false⟩ := by
  constructor
  · simp [acceptAll, hdim, hvalid]
  · cases h : (htm && hwn && hsi) <;> simp [interpolateStep, h]

/-- Witness for the amended C3: the 4-D invalid-time scenario aborts with
nothing changed, and `Interpolate` with all collaborators present but an
invalid time point only warns. -/
theorem invalid_time_point_aborts_witness :
    invalidTime4DInput.dim4 = true ∧ invalidTime4DInput.validTimePoint = false ∧
    (acceptAll true zeroAcceptState invalidTime4DInput = zeroAcceptState ∧
     interpolateStep true true true false = ⟨true && true && true, false, false⟩) :=
  ⟨rfl, rfl, invalid_time_point_aborts zeroAcceptState invalidTime4DInput true true true rfl rfl⟩

/-! ## `MouseMoved` maintenance facts -/

/-- After the contour maintenance step, the cached contour size equals the
class-static brush size. -/
theorem refreshContour_lastContourSize (g : PaintbrushGlobals) (s : PaintbrushToolState) :
    (refreshContour g s).lastContourSize = g.size := by
  unfold refreshContour
  split_ifs with h
  · rfl
  · exact not_ne_iff.mp h

/-- The maintenance step is the identity when the cached size is current. -/
theorem refreshContour_of_eq (g : PaintbrushGlobals) (s : PaintbrushToolState)
    (h : s.lastContourSize = g.size) : refreshContour g s = s := by
  unfold refreshContour
  rw [if_neg (not_ne_iff.mpr h)]

/-- When the cached size is stale the maintenance step rebuilds the master
contour with the class-static size. -/
theorem refreshContour_masterContour_of_ne (g : PaintbrushGlobals) (s : PaintbrushToolState)
    (h : s.lastContourSize ≠ g.size) :
    (refreshContour g s).masterContour = updateContour g.size := by
  unfold refreshContour
  rw [if_pos h]

/-- The proceed branch of `MouseMoved` stores the rounded position into the
static `lastPos`. -/
theorem mouseMovedBody_lastPos (g : PaintbrushGlobals) (s0 : PaintbrushToolState)
    (ix iy : Int) (p : ℚ × ℚ × ℚ) (pressed : Bool) :
    (mouseMovedBody g s0 ix iy p pressed).lastPos = p := by
  simp only [mouseMovedBody]
  split_ifs <;> rfl

/-- The proceed branch never touches the cached contour size. -/
theorem mouseMovedBody_lastContourSize (g : PaintbrushGlobals) (s0 : PaintbrushToolState)
    (ix iy : Int) (p : ℚ × ℚ × ℚ) (pressed : Bool) :
    (mouseMovedBody g s0 ix iy p pressed).lastContourSize = s0.lastContourSize := by
  simp only [mouseMovedBody]
  split_ifs <;> rfl

/-- The proceed branch never touches the master contour. -/
theorem mouseMovedBody_masterContour (g : PaintbrushGlobals) (s0 : PaintbrushToolState)
    (ix iy : Int) (p : ℚ × ℚ × ℚ) (pressed : Bool) :
    (mouseMovedBody g s0 ix iy p pressed).masterContour = s0.masterContour := by
  simp only [mouseMovedBody]
  split_ifs <;> rfl

/-- After any `MouseMoved` call the cached contour size equals the
class-static brush size. -/
theorem mouseMoved_lastContourSize (eps : ℚ) (g : PaintbrushGlobals)
    (s : PaintbrushToolState) (pos : ℚ × ℚ × ℚ) (pressed : Bool) :
    ((mouseMoved eps g s pos pressed).1).lastContourSize = g.size := by
  simp only [mouseMoved]
  split_ifs <;>
    simp [mouseMovedBody_lastContourSize, refreshContour_lastContourSize]

/-- A `MouseMoved` call that finds a stale cached contour size rebuilds the
master contour with the class-static brush size, whether or not the call
proceeds past the skip check. -/
theorem mouseMoved_masterContour_of_ne (eps : ℚ) (g : PaintbrushGlobals)
    (s : PaintbrushToolState) (pos : ℚ × ℚ × ℚ) (pressed : Bool)
    (h : s.lastContourSize ≠ g.size) :
    ((mouseMoved eps g s pos pressed).1).masterContour = updateContour g.size := by
  simp only [mouseMoved]
  split_ifs <;>
    simp [mouseMovedBody_masterContour, refreshContour_masterContour_of_ne _ _ h]

/-- C9: the brush size is class-static state shared by all paintbrush tool
instances: `SetSize` through any instance writes the single shared `m_Size`
(and touches no per-instance state — it does not even take any), so the next
`MouseMoved` of any other instance `b` rebuilds `b`'s master contour with
exactly the value just set, and its cached contour size becomes that value. -/
theorem setSize_shared_across_instances (g : PaintbrushGlobals) (v : Int)
    (_a b : PaintbrushToolState) (eps : ℚ) (pos : ℚ × ℚ × ℚ) (pressed : Bool)
    (h : b.lastContourSize ≠ v) :
    (setSize g v).size = v ∧
    ((mouseMoved eps (setSize g v) b pos pressed).1).lastContourSize = v ∧
    ((mouseMoved eps (setSize g v) b pos pressed).1).masterContour = updateContour v ∧
    refreshContour (setSize g v) b =
      { b with masterContour := updateContour v, lastContourSize := v } := by
  refine ⟨rfl, mouseMoved_lastContourSize eps (setSize g v) b pos pressed,
    mouseMoved_masterContour_of_ne eps (setSize g v) b pos pressed h, ?_⟩
  simp [refreshContour, setSize, h]

/-- Witness for C9: size `3` set through one instance is used by the rebuild
of a fresh instance. -/
theorem setSize_shared_across_instances_witness :
    sampleToolState.lastContourSize ≠ (3 : Int) ∧
    ((setSize ⟨1⟩ 3).size = 3 ∧
     ((mouseMoved 0 (setSize ⟨1⟩ 3) sampleToolState (0, 0, 0) false).1).lastContourSize = 3 ∧
     ((mouseMoved 0 (setSize ⟨1⟩ 3) sampleToolState (0, 0, 0) false).1).masterContour =
       updateContour 3 ∧
     refreshContour (setSize ⟨1⟩ 3) sampleToolState =
       { sampleToolState with masterContour := updateContour 3, lastContourSize := 3 }) :=
  ⟨by decide,
   setSize_shared_across_instances ⟨1⟩ 3 sampleToolState sampleToolState 0 (0, 0, 0) false
     (by decide)⟩

/-- C7: a second consecutive `MouseMoved` call whose position rounds to the
same voxel as the first, with the brush not down, is a no-op: the call
returns at the skip check, fills nothing, and leaves the entire tool state —
in particular the painting slice buffer — unchanged. -/
theorem mouseMoved_same_voxel_second_call_noop (eps : ℚ) (g : PaintbrushGlobals)
    (s : PaintbrushToolState) (pos1 pos2 : ℚ × ℚ × ℚ) (pressed1 : Bool)
    (heps : 0 ≤ eps)
    (hx : cppRound pos2.1 = cppRound pos1.1)
    (hy : cppRound pos2.2.1 = cppRound pos1.2.1)
    (hz : pos2.2.2 = pos1.2.2) :
    mouseMoved eps g ((mouseMoved eps g s pos1 pressed1).1) pos2 false =
      ((mouseMoved eps g s pos1 pressed1).1, false) := by
  set s1 := (mouseMoved eps g s pos1 pressed1).1 with hs1
  have hlcs : s1.lastContourSize = g.size :=
    mouseMoved_lastContourSize eps g s pos1 pressed1
  have hle : |(cppRound pos2.1 : ℚ) - s1.lastPos.1| ≤ eps ∧
      |(cppRound pos2.2.1 : ℚ) - s1.lastPos.2.1| ≤ eps ∧
      |pos2.2.2 - s1.lastPos.2.2| ≤ eps := by
    rw [hs1]
    simp only [mouseMoved]
    split_ifs with h1
    · simp only [mouseMovedBody_lastPos]
      rw [hx, hy, hz]
      simp [heps]
    · push_neg at h1
      rw [hx, hy, hz]
      exact ⟨h1.1, h1.2.1, h1.2.2.1⟩
  have hrefresh : refreshContour g s1 = s1 := refreshContour_of_eq g s1 hlcs
  have hcond : ¬(|(cppRound pos2.1 : ℚ) - s1.lastPos.1| > eps ∨
      |(cppRound pos2.2.1 : ℚ) - s1.lastPos.2.1| > eps ∨
      |pos2.2.2 - s1.lastPos.2.2| > eps ∨ false = true) := by
    push_neg
    exact ⟨hle.1, hle.2.1, hle.2.2, by simp⟩
  simp only [mouseMoved, hrefresh]
  rw [if_neg hcond]

/-- Witness for C7: two calls at positions rounding to the same voxel, the
first with the button pressed, the second without. -/
theorem mouseMoved_same_voxel_second_call_noop_witness :
    (0 : ℚ) ≤ 0 ∧
    cppRound ((3 : ℚ) / 4) = cppRound ((1 : ℚ) / 2) ∧
    mouseMoved 0 ⟨2⟩ ((mouseMoved 0 ⟨2⟩ sampleToolState (1 / 2, 0, 0) true).1)
        (3 / 4, 0, 0) false =
      ((mouseMoved 0 ⟨2⟩ sampleToolState (1 / 2, 0, 0) true).1, false) :=
  ⟨le_refl 0, by norm_num [cppRound],
   mouseMoved_same_voxel_second_call_noop 0 ⟨2⟩ sampleToolState (1 / 2, 0, 0) (3 / 4, 0, 0)
     true (le_refl 0) (by norm_num [cppRound]) rfl rfl⟩

/-! ## Serialization invariants of the deferred 3-D interpolation passes -/

/-- Waiting on the interpolation watcher preserves the serialization
invariant: the awaited job moves from running to completed. -/
theorem watcherWaitForFinished_invariant (s : WatcherState) (h : watcherInvariant s) :
    watcherInvariant (watcherWaitForFinished s) := by
  obtain ⟨hc, hm⟩ := h
  unfold watcherWaitForFinished
  cases hr : s.running with
  | none => exact ⟨hc, hm⟩
  | some j =>
    rw [hr] at hm
    refine ⟨hc, ?_⟩
    rw [hm]
    simp only [Option.toList_some, Option.toList_none, Multiset.coe_nil,
      Multiset.coe_singleton, ← Multiset.cons_coe, ← Multiset.singleton_add]
    abel

/-- Waiting on the plane watcher preserves the serialization invariant. -/
theorem planeWaitForFinished_invariant (s : WatcherState) (h : watcherInvariant s) :
    watcherInvariant (planeWaitForFinished s) := by
  obtain ⟨hc, hm⟩ := h
  unfold planeWaitForFinished
  cases hr : s.planeRunning with
  | none => exact ⟨hc, hm⟩
  | some j =>
    rw [hr] at hm
    refine ⟨hc, ?_⟩
    rw [hm]
    simp only [Option.toList_some, Option.toList_none, Multiset.coe_nil,
      Multiset.coe_singleton, ← Multiset.cons_coe, ← Multiset.singleton_add]
    abel

/-- Starting a job on an idle interpolation watcher preserves the
serialization invariant: the fresh job is recorded both as started and as
running. -/
theorem startInterpolationJob_invariant (s : WatcherState) (h : watcherInvariant s)
    (hr : s.running = none) : watcherInvariant (startInterpolationJob s) := by
  obtain ⟨hc, hm⟩ := h
  rw [hr] at hm
  refine ⟨hc, ?_⟩
  unfold startInterpolationJob
  dsimp only
  rw [← Multiset.cons_coe, ← Multiset.singleton_add, hm]
  simp only [Option.toList_some, Option.toList_none, Multiset.coe_nil,
    Multiset.coe_singleton]
  abel

/-- Starting a job on an idle plane watcher preserves the serialization
invariant. -/
theorem startPlaneJob_invariant (s : WatcherState) (h : watcherInvariant s)
    (hr : s.planeRunning = none) : watcherInvariant (startPlaneJob s) := by
  obtain ⟨hc, hm⟩ := h
  rw [hr] at hm
  refine ⟨hc, ?_⟩
  unfold startPlaneJob
  dsimp only
  rw [← Multiset.cons_coe, ← Multiset.singleton_add, hm]
  simp only [Option.toList_some, Option.toList_none, Multiset.coe_nil,
    Multiset.coe_singleton]
  abel

/-- After the wait-if-running step the interpolation watcher is idle. -/
theorem ifWait_running_none (s : WatcherState) :
    (if s.running.isSome then watcherWaitForFinished s else s).running = none := by
  cases hr : s.running <;> simp [hr, watcherWaitForFinished]

/-- After the wait-if-running step the plane watcher is idle. -/
theorem ifWaitPlane_planeRunning_none (s : WatcherState) :
    (if s.planeRunning.isSome then planeWaitForFinished s else s).planeRunning = none := by
  cases hr : s.planeRunning <;> simp [hr, planeWaitForFinished]

/-- The surface-interpolation handler preserves the serialization invariant:
it first awaits the prior pass, then starts one new job and records it as
both started and running. -/
theorem onSurfaceInterpolationInfoChanged_invariant (s : WatcherState)
    (h : watcherInvariant s) :
    watcherInvariant (onSurfaceInterpolationInfoChanged s) := by
  unfold onSurfaceInterpolationInfoChanged
  by_cases he : s.enabled3D = true
  · rw [if_pos he]
    refine startInterpolationJob_invariant _ ?_ (ifWait_running_none s)
    by_cases hr : s.running.isSome = true
    · rw [if_pos hr]
      exact watcherWaitForFinished_invariant s h
    · rw [if_neg hr]
      exact h
  · rw [if_neg he]
    exact h

/-- The plane-suggestion handler preserves the serialization invariant. -/
theorem onSuggestPlaneClicked_invariant (s : WatcherState) (h : watcherInvariant s) :
    watcherInvariant (onSuggestPlaneClicked s) := by
  unfold onSuggestPlaneClicked
  refine startPlaneJob_invariant _ ?_ (ifWaitPlane_planeRunning_none s)
  by_cases hr : s.planeRunning.isSome = true
  · rw [if_pos hr]
    exact planeWaitForFinished_invariant s h
  · rw [if_neg hr]
    exact h

/-- Every scheduling step preserves the serialization invariant. -/
theorem watcherStep_invariant (s : WatcherState) (e : WatcherEvent)
    (h : watcherInvariant s) : watcherInvariant (watcherStep s e) := by
  cases e with
  | surfaceInfoChanged => exact onSurfaceInterpolationInfoChanged_invariant s h
  | interpolationJobResolved => exact watcherWaitForFinished_invariant s h
  | planeJobResolved => exact planeWaitForFinished_invariant s h
  | waitAll => exact planeWaitForFinished_invariant _ (watcherWaitForFinished_invariant s h)

/-- Every scheduling history preserves the serialization invariant. -/
theorem watcherRun_invariant (s : WatcherState) (events : List WatcherEvent)
    (h : watcherInvariant s) : watcherInvariant (watcherRun s events) := by
  induction events generalizing s with
  | nil => exact h
  | cons e t ih => exact ih (watcherStep s e) (watcherStep_invariant s e h)

/-- The initial scheduling state satisfies the serialization invariant. -/
theorem watcherInit_invariant (enabled : Bool) : watcherInvariant (watcherInit enabled) := by
  constructor <;> simp [watcherInit]

/-- C8: when a new 3-D interpolation pass is requested while a previous pass
is still running, the handler waits for the prior job's future to resolve —
the prior job is completed, never cancelled — before pointing the watcher at
the newly started job; and along every scheduling history no job is ever
cancelled and every started job is accounted for as either completed or
still running (so passes are serialized and at most one is in flight per
watcher). -/
theorem interpolation_passes_serialized :
    (∀ (s : WatcherState) (j : ℕ), s.enabled3D = true → s.running = some j →
      (onSurfaceInterpolationInfoChanged s).completed = j :: s.completed ∧
      (onSurfaceInterpolationInfoChanged s).running = some s.nextId ∧
      (onSurfaceInterpolationInfoChanged s).cancelled = s.cancelled) ∧
    (∀ (enabled : Bool) (events : List WatcherEvent),
      watcherInvariant (watcherRun (watcherInit enabled) events)) := by
  constructor
  · intro s j he hr
    unfold onSurfaceInterpolationInfoChanged watcherWaitForFinished
    simp [he, hr, startInterpolationJob]
  · intro enabled events
    exact watcherRun_invariant _ _ (watcherInit_invariant enabled)

/-- Witness for C8: a pending pass (job `5`) is completed, not cancelled,
before the new pass starts; and a small explicit history keeps the
invariant. -/
theorem interpolation_passes_serialized_witness :
    sampleWatcherState.enabled3D = true ∧ sampleWatcherState.running = some 5 ∧
    ((onSurfaceInterpolationInfoChanged sampleWatcherState).completed =
        5 :: sampleWatcherState.completed ∧
      (onSurfaceInterpolationInfoChanged sampleWatcherState).running =
        some sampleWatcherState.nextId ∧
      (onSurfaceInterpolationInfoChanged sampleWatcherState).cancelled =
        sampleWatcherState.cancelled) ∧
    watcherInvariant (watcherRun (watcherInit true)
      [.surfaceInfoChanged, .surfaceInfoChanged, .interpolationJobResolved]) :=
  ⟨rfl, rfl,
   interpolation_passes_serialized.1 sampleWatcherState 5 rfl rfl,
   interpolation_passes_serialized.2 true
     [.surfaceInfoChanged, .surfaceInfoChanged, .interpolationJobResolved]⟩

end MITK
